import Mathlib

/-!
Verification development for the marketing-dashboard repository.

The TypeScript sources are shallowly embedded here:
- JS numbers are modelled as rationals (`ℚ`); the only float-sensitive
  places are the `0.7` / `0.8` sampling thresholds in the column
  classifiers, modelled as the exact rationals `7/10` / `8/10`.
- JS `Date` values are modelled as minutes since the Unix epoch (`Int`),
  with the proleptic Gregorian calendar (the ECMAScript calendar)
  implemented by explicit `daysFromCivil` / `civilFromDays` conversions.
- `new Date(string)` parsing of data-dependent strings is abstracted as a
  parameter `p : String → Option Int` (`none` models an Invalid Date).
- fallible code is embedded with `Except String`.
-/

namespace Dashboard

/-! ## JS primitives -/

/-- JS array indexing `row[i]`: out-of-range (including negative) yields
`undefined`, which every use site treats like the empty string. -/
def jsGet (row : List String) (i : Int) : String :=
  if i < 0 then "" else row.getD i.toNat ""

/-- JS `Array.prototype.indexOf` (first occurrence, `-1` when absent). -/
def jsIndexOf (l : List String) (a : String) : Int :=
  match l with
  | [] => -1
  | x :: xs => if x = a then 0 else
      let r := jsIndexOf xs a
      if r = -1 then -1 else r + 1

/-- Truthiness of an optional JS string: `undefined` and `""` are falsy. -/
def truthyS : Option String → Bool
  | none => false
  | some s => !(s == "")

/-- Split a character list at every occurrence of `sep` (the separator is
dropped; `n` separators yield `n + 1` pieces). -/
def splitOnChar (sep : Char) : List Char → List (List Char)
  | [] => [[]]
  | c :: rest =>
    let r := splitOnChar sep rest
    if c = sep then [] :: r
    else
      match r with
      | h :: t => (c :: h) :: t
      | [] => [[c]]

/-- `String.splitOn` for a single-character separator, via `splitOnChar`
so that it reduces in the kernel. -/
def jsSplit (sep : Char) (s : String) : List String :=
  (splitOnChar sep s.data).map fun l => ⟨l⟩

/-- Drop leading and trailing JS whitespace from a character list. -/
def charTrim (l : List Char) : List Char :=
  ((l.dropWhile Char.isWhitespace).reverse.dropWhile Char.isWhitespace).reverse

/-- `s.trim()`. -/
def jsTrim (s : String) : String := ⟨charTrim s.data⟩

/-- ASCII lower-casing of one character. -/
def charLower (c : Char) : Char :=
  if 'A' ≤ c ∧ c ≤ 'Z' then Char.ofNat (c.toNat + 32) else c

/-- `s.toLowerCase()` (ASCII; the keyword lists are all ASCII). -/
def jsLower (s : String) : String := ⟨s.data.map charLower⟩

/-- Is `pre` a prefix of `l`? -/
def charPrefix : List Char → List Char → Bool
  | [], _ => true
  | _ :: _, [] => false
  | a :: as, b :: bs => a = b && charPrefix as bs

/-- Substring containment on character lists. -/
def charInfix (needle : List Char) : List Char → Bool
  | [] => charPrefix needle []
  | c :: rest => charPrefix needle (c :: rest) || charInfix needle rest

/-- JS `haystack.includes(needle)` (substring containment). -/
def jsIncludes (hay needle : String) : Bool := charInfix needle.data hay.data

/-- Value of an all-digit character list, `none` otherwise. -/
def digitsToNat? : List Char → Option Nat
  | [] => none
  | [c] => if c.isDigit then some (c.toNat - 48) else none
  | c :: rest =>
    if c.isDigit then
      match digitsToNat? rest with
      | some v => some ((c.toNat - 48) * 10 ^ rest.length + v)
      | none => none
    else none

/-- JS `Number(s)` on the strings this code base feeds it: whitespace is
trimmed, the empty string is `0`, digit strings are their value, anything
else is `NaN` (`none`). -/
def jsNumber (s : String) : Option Int :=
  let t := charTrim s.data
  if t = [] then some 0
  else (digitsToNat? t).map fun n => (n : Int)

/-- Parse a maximal digit prefix: returns (value, digit count, rest). -/
def parseDigits : List Char → Nat × Nat × List Char
  | [] => (0, 0, [])
  | c :: cs =>
    if c.isDigit then
      let (v, n, rest) := parseDigits cs
      (c.toNat - 48) * 10 ^ n + v |> fun v2 => (v2, n + 1, rest)
    else (0, 0, c :: cs)

/-- Model of JS `parseFloat` on the decimal forms used by this code base
(optional sign, digits, optional fraction, trailing garbage ignored;
exponents and `Infinity` are not produced by the repository's data paths).
`none` models `NaN`. -/
def jsParseFloat (s : String) : Option ℚ :=
  let cs := s.data.dropWhile (·.isWhitespace)
  let (sign, cs) : ℚ × List Char :=
    match cs with
    | '-' :: r => (-1, r)
    | '+' :: r => (1, r)
    | _ => (1, cs)
  let (ip, ic, cs) := parseDigits cs
  match cs with
  | '.' :: r =>
    let (fp, fc, _) := parseDigits r
    if ic = 0 ∧ fc = 0 then none
    else some (sign * ((ip : ℚ) + (fp : ℚ) / 10 ^ fc))
  | _ => if ic = 0 then none else some (sign * (ip : ℚ))

/-- `value.replace(/[$,%]/g, '')`. -/
def stripFormatChars (s : String) : String :=
  ⟨s.data.filter (fun c => !(c = '$' ∨ c = ',' ∨ c = '%'))⟩

/-- JS object key assignment on an association list: update the first
occurrence in place, else append (insertion order preserved). -/
def jsObjSet (l : List (String × ℚ)) (k : String) (v : ℚ) : List (String × ℚ) :=
  match l with
  | [] => [(k, v)]
  | (k2, v2) :: rest =>
    if k2 = k then (k, v) :: rest else (k2, v2) :: jsObjSet rest k v

/-! ## Proleptic Gregorian calendar (the ECMAScript `Date` calendar)

`daysFromCivil` / `civilFromDays` convert between (year, month 1..12,
day) and days since 1970-01-01, following the standard era-based
algorithm; `/` on `Int` is floor division. -/

def daysFromCivil (y m d : Int) : Int :=
  let y2 := if m ≤ 2 then y - 1 else y
  let era := y2 / 400
  let yoe := y2 - era * 400
  let mp := if m > 2 then m - 3 else m + 9
  let doy := (153 * mp + 2) / 5 + d - 1
  let doe := yoe * 365 + yoe / 4 - yoe / 100 + doy
  era * 146097 + doe - 719468

def civilFromDays (z : Int) : Int × Int × Int :=
  let z2 := z + 719468
  let era := z2 / 146097
  let doe := z2 - era * 146097
  let century := min (doe / 36524) 3
  let cdoy := doe - 36524 * century
  let quad := cdoy / 1461
  let qdoy := cdoy - 1461 * quad
  let yinq := min (qdoy / 365) 3
  let doy := qdoy - 365 * yinq
  let yoe := 100 * century + 4 * quad + yinq
  let y := yoe + era * 400
  let mp := (5 * doy + 2) / 153
  let d := doy - (153 * mp + 2) / 5 + 1
  let m := if mp < 10 then mp + 3 else mp - 9
  (if m ≤ 2 then y + 1 else y, m, d)

/-! ## JS `Date` operations at minute granularity -/

/-- Days since epoch of a minute timestamp. -/
def epochDay (t : Int) : Int := t / 1440

/-- Minute of day of a timestamp. -/
def minOfDay (t : Int) : Int := t % 1440

/-- `d.setHours(h, m, 0, 0)` (ECMAScript `MakeTime` normalizes overflow
arithmetically, which the formula reproduces). -/
def jsSetHM (t : Int) (h m : Int) : Int :=
  epochDay t * 1440 + h * 60 + m

/-- `d.getDay()`: weekday, 0 = Sunday (1970-01-01 was a Thursday = 4). -/
def jsGetDay (t : Int) : Int := (epochDay t + 4) % 7

/-- `d.getDate()`: day of month. -/
def jsGetDate (t : Int) : Int := (civilFromDays (epochDay t)).2.2

/-- `d.getMonth()`: zero-based month index. -/
def jsGetMonth (t : Int) : Int := (civilFromDays (epochDay t)).2.1 - 1

/-- `d.setDate(n)`: ECMAScript `MakeDay(year, month, n)`, i.e. the first
day of the current month plus `n - 1` days, keeping the time of day. -/
def jsSetDate (t : Int) (n : Int) : Int :=
  let c := civilFromDays (epochDay t)
  (daysFromCivil c.1 c.2.1 1 + (n - 1)) * 1440 + minOfDay t

/-- `d.setMonth(mi)` (zero-based `mi`, arbitrary): `MakeDay(y, mi, dom)`,
keeping the current day of month and time of day; overflow past the end
of the target month spills into the following month. -/
def jsSetMonth (t : Int) (mi : Int) : Int :=
  let c := civilFromDays (epochDay t)
  let y2 := c.1 + mi / 12
  let mn := mi % 12
  (daysFromCivil y2 (mn + 1) 1 + (c.2.2 - 1)) * 1440 + minOfDay t

/-! ## Schedule calculator (`calculateNextRun`) -/

/-- `timeOfDay.split(':').map(Number)` destructured to `[hours, minutes]`;
a missing piece or a `NaN` makes the JS `Date` invalid (`none`). -/
def jsParseHM (timeOfDay : String) : Option (Int × Int) :=
  let parts := jsSplit ':' timeOfDay
  match parts.get? 0, parts.get? 1 with
  | some hs, some ms =>
    match jsNumber hs, jsNumber ms with
    | some h, some m => some (h, m)
    | _, _ => none
  | _, _ => none

/-- Embedding of `calculateNextRun` (src/unnamed/part_001). The reference
`now` (JS `new Date()`) is an explicit minute timestamp; the result is
`none` when the time-of-day string does not yield numbers (Invalid Date).
The `timezone` parameter is carried exactly as in the source. -/
def calculateNextRun (frequency : String) (timeOfDay : String)
    (dayOfWeek : Option Int) (dayOfMonth : Option Int)
    (timezone : String) (now : Int) : Option Int :=
  match jsParseHM timeOfDay with
  | none => none
  | some (hours, minutes) =>
    let nextRun := jsSetHM now hours minutes
    if frequency = "daily" then
      some (if nextRun ≤ now then jsSetDate nextRun (jsGetDate nextRun + 1) else nextRun)
    else if frequency = "weekly" then
      match dayOfWeek with
      | some dw =>
        let currentDay := jsGetDay nextRun
        let daysUntilTarget := (dw - currentDay + 7).tmod 7
        if daysUntilTarget = 0 ∧ nextRun ≤ now then
          some (jsSetDate nextRun (jsGetDate nextRun + 7))
        else
          some (jsSetDate nextRun (jsGetDate nextRun + daysUntilTarget))
      | none => some nextRun
    else if frequency = "monthly" then
      match dayOfMonth with
      | some dom =>
        let r1 := jsSetDate nextRun dom
        if r1 ≤ now then
          let r2 := jsSetMonth r1 (jsGetMonth r1 + 1)
          some (jsSetDate r2 dom)
        else some r1
      | none => some nextRun
    else some nextRun

/-! ## Calendar lemmas -/

/-- Converting a day count to a civil date and back is the identity. -/
theorem daysFromCivil_civilFromDays (z : Int) :
    daysFromCivil (civilFromDays z).1 (civilFromDays z).2.1 (civilFromDays z).2.2 = z := by
  simp only [civilFromDays, daysFromCivil]
  generalize hz2 : z + 719468 = z2
  generalize hera : z2 / 146097 = era
  generalize hdoe : z2 - era * 146097 = doe
  generalize hcent : min (doe / 36524) 3 = century
  generalize hcd : doe - 36524 * century = cdoy
  generalize hq : cdoy / 1461 = quad
  generalize hqd : cdoy - 1461 * quad = qdoy
  generalize hyq : min (qdoy / 365) 3 = yinq
  generalize hdoy : qdoy - 365 * yinq = doy
  generalize hmp : (5 * doy + 2) / 153 = mp
  generalize hk : (153 * mp + 2) / 5 = k5
  have hb1 : 0 ≤ doe ∧ doe ≤ 146096 := by omega
  have hb2 : 0 ≤ century ∧ century ≤ 3 ∧ 0 ≤ cdoy ∧ cdoy ≤ 36524 := by omega
  have hb3 : 0 ≤ quad ∧ quad ≤ 24 ∧ 0 ≤ qdoy ∧ qdoy ≤ 1460 := by omega
  have hb4 : 0 ≤ yinq ∧ yinq ≤ 3 ∧ 0 ≤ doy ∧ doy ≤ 365 ∧ qdoy = 365 * yinq + doy := by
    omega
  have hyoe4 : (100 * century + 4 * quad + yinq) / 4 = 25 * century + quad := by omega
  have hyoe100 : (100 * century + 4 * quad + yinq) / 100 = century := by omega
  have hre : 365 * (100 * century + 4 * quad + yinq)
      + (100 * century + 4 * quad + yinq) / 4
      - (100 * century + 4 * quad + yinq) / 100 + doy = doe := by omega
  have hmpb : 0 ≤ mp ∧ mp ≤ 11 ∧ k5 ≤ doy ∧ doy ≤ k5 + 30 := by omega
  have hf : (100 * century + 4 * quad + yinq + era * 400) / 400 = era := by omega
  have hsub : 100 * century + 4 * quad + yinq + era * 400 - era * 400
      = 100 * century + 4 * quad + yinq := by ring
  split_ifs <;>
    first
    | omega
    | (simp only [add_sub_cancel_right, sub_add_cancel]
       rw [hf, hsub]
       omega)

/-- `daysFromCivil` is linear in the day argument. -/
theorem daysFromCivil_day_shift (y m d : Int) :
    daysFromCivil y m d = daysFromCivil y m 1 + (d - 1) := by
  simp only [daysFromCivil]
  split_ifs <;> ring

/-- The JS idiom `d.setDate(d.getDate() + k)` advances the timestamp by
exactly `k` days. -/
theorem jsSetDate_getDate_add (t k : Int) :
    jsSetDate t (jsGetDate t + k) = t + 1440 * k := by
  have h := daysFromCivil_civilFromDays (epochDay t)
  have h2 := daysFromCivil_day_shift (civilFromDays (epochDay t)).1
    (civilFromDays (epochDay t)).2.1 (civilFromDays (epochDay t)).2.2
  simp only [jsSetDate, jsGetDate, minOfDay, epochDay] at h h2 ⊢
  omega

/-! ## Claims about the schedule calculator -/

/-- C1: for the daily frequency, `calculateNextRun` returns the reference
day at the given time-of-day when that instant is strictly in the future,
and otherwise the same time-of-day one day later; concretely, for
`("daily", "09:00", tz = UTC)` the reference now 2024-01-01T10:00:00Z
(minute 19723*1440+600) yields 2024-01-02T09:00:00Z (minute
19724*1440+540), and 2024-01-01T08:00:00Z yields 2024-01-01T09:00:00Z. -/
theorem c1_daily_next_run :
    (∀ (tod : String) (h m : Int) (now : Int) (dw dom : Option Int) (tz : String),
        jsParseHM tod = some (h, m) →
        calculateNextRun "daily" tod dw dom tz now =
          some (if now < jsSetHM now h m then jsSetHM now h m
                else jsSetHM now h m + 1440)) ∧
    calculateNextRun "daily" "09:00" none none "UTC" (19723 * 1440 + 600)
      = some (19724 * 1440 + 540) ∧
    calculateNextRun "daily" "09:00" none none "UTC" (19723 * 1440 + 480)
      = some (19723 * 1440 + 540) := by
  refine ⟨?_, by decide, by decide⟩
  intro tod h m now dw dom tz hp
  have hadd := jsSetDate_getDate_add (jsSetHM now h m) 1
  simp only [calculateNextRun, hp, if_true]
  by_cases hle : jsSetHM now h m ≤ now
  · have hlt : ¬ (now < jsSetHM now h m) := by omega
    rw [if_pos hle, if_neg hlt, hadd]
    norm_num
  · have hlt : now < jsSetHM now h m := by omega
    rw [if_neg hle, if_pos hlt]

/-- C1 witness: the general daily statement applied at time-of-day
"09:00" and reference now 0. -/
theorem c1_daily_next_run_witness :
    jsParseHM "09:00" = some (9, 0) ∧
    calculateNextRun "daily" "09:00" none none "UTC" 0 =
      some (if (0 : Int) < jsSetHM 0 9 0 then jsSetHM 0 9 0
            else jsSetHM 0 9 0 + 1440) :=
  ⟨by decide, c1_daily_next_run.1 "09:00" 9 0 0 none none "UTC" (by decide)⟩

/-- C10: the `timezone` argument of `calculateNextRun` is never used: for
every frequency, time-of-day, day-of-week, day-of-month and reference now,
any two timezone values produce the same next-run instant. -/
theorem c10_timezone_has_no_effect (frequency timeOfDay : String)
    (dayOfWeek dayOfMonth : Option Int) (tz1 tz2 : String) (now : Int) :
    calculateNextRun frequency timeOfDay dayOfWeek dayOfMonth tz1 now =
      calculateNextRun frequency timeOfDay dayOfWeek dayOfMonth tz2 now := rfl

/-! ## CSV parser (src/backend/dashboard/analyze.ts, `parseCSVContent`) -/

structure ParseResult where
  headers : List String
  rows : List (List String)
deriving DecidableEq

/-- `content.split(/\r?\n/)`: split at every newline, consuming one
carriage return immediately before it. -/
def splitLines (s : String) : List String :=
  (splitOnChar '\n' s.data).map fun l =>
    match l.reverse with
    | '\r' :: t => ⟨t.reverse⟩
    | _ => ⟨l⟩

/-- Embedding of `parseCSVLine`: comma-separated fields with double-quote
quoting, `""` inside quotes is an escaped quote, each field trimmed. -/
def parseCSVLine (line : String) : List String :=
  go line.data false "" where
  go : List Char → Bool → String → List String
  | [], _, current => [jsTrim current]
  | '"' :: '"' :: rest, true, current => go rest true (current.push '"')
  | '"' :: rest, inQuotes, current => go rest (!inQuotes) current
  | ',' :: rest, false, current => jsTrim current :: go rest false ""
  | c :: rest, inQuotes, current => go rest inQuotes (current.push c)

/-- The duplicate headers (case-insensitive), in encounter order. -/
def dupHeaders (headers : List String) : List String :=
  go [] headers where
  go : List String → List String → List String
  | _, [] => []
  | seen, h :: rest =>
    if seen.contains (jsLower h) then h :: go (jsLower h :: seen) rest
    else go (jsLower h :: seen) rest

/-- The data-row loop of `parseCSVContent`: every line must yield exactly
`hlen` fields, else the parse fails with the row number. -/
def parseRows (hlen : Nat) (i : Nat) : List String → Except String (List (List String))
  | [] => .ok []
  | l :: rest =>
    let row := parseCSVLine l
    if row.length ≠ hlen then
      .error ("Error parsing row " ++ toString i ++ ": Row " ++ toString i ++ " has "
        ++ toString row.length ++ " columns but expected " ++ toString hlen)
    else
      match parseRows hlen (i + 1) rest with
      | .ok rs => .ok (row :: rs)
      | .error e => .error e

/-- Embedding of `parseCSVContent`. -/
def parseCSVContent (csvContent : String) : Except String ParseResult :=
  if csvContent = "" ∨ jsTrim csvContent = "" then .error "CSV content is empty"
  else
    let lines := (splitLines csvContent).filter fun l => !(jsTrim l == "")
    match lines with
    | [] => .error "No valid lines found in CSV"
    | headerLine :: rest =>
      if headerLine = "" then .error "Header line is missing"
      else
        let headers := parseCSVLine headerLine
        if headers = [] then .error "No headers found in first line"
        else if dupHeaders headers ≠ [] then
          .error ("Duplicate column headers found: "
            ++ String.intercalate ", " (dupHeaders headers))
        else
          match parseRows headers.length 2 rest with
          | .ok rows => .ok ⟨headers, rows⟩
          | .error e => .error e

/-- Helper: `Except` success test. -/
def isOkE {ε α : Type} : Except ε α → Bool
  | .ok _ => true
  | .error _ => false

/-! ## Upload-path CSV validation (src/backend/dashboard/upload.ts) -/

/-- Embedding of `validateCSVContent` from the upload endpoint: naive
comma splitting (no quote handling), only the first 5 data rows checked
for column-count consistency, at least 2 columns, at least 2 data rows,
at least 50 characters, no U+FFFD replacement character. -/
def validateCSVContent (content : String) : Except String Unit :=
  if content.data.contains (Char.ofNat 65533) then
    .error "File contains invalid characters. Please ensure the file is saved in UTF-8 encoding"
  else
    let lines := (splitLines content).filter fun l => !(jsTrim l == "")
    if lines.length = 0 then .error "CSV file appears to be empty"
    else if lines.length = 1 then
      .error "CSV file contains only headers. Please include data rows"
    else
      match lines with
      | [] => .error "CSV file appears to be empty"
      | headerLine :: rest =>
        if jsTrim headerLine = "" then .error "CSV file is missing a header row"
        else
          let headers := (jsSplit ',' headerLine).map jsTrim
          if headers.length < 2 then
            .error "CSV file must contain at least 2 columns"
          else if (headers.filter fun h => h == "").length > 0 then
            .error "CSV file contains empty column headers"
          else
            let dataLines := rest.take 5
            match checkRowWidths headers.length 2 dataLines with
            | .error e => .error e
            | .ok _ =>
              if lines.length < 3 then
                .error "CSV file should contain at least 2 data rows for meaningful analysis"
              else if content.length < 50 then
                .error "CSV file appears to be too small to contain meaningful data"
              else .ok ()
where
  /-- The first-rows consistency loop (naive comma split). -/
  checkRowWidths (hlen : Nat) (i : Nat) : List String → Except String Unit
  | [] => .ok ()
  | l :: rest =>
    if (jsSplit ',' l).length ≠ hlen then
      .error ("Row " ++ toString i ++ " has " ++ toString (jsSplit ',' l).length
        ++ " columns but header has " ++ toString hlen ++ " columns")
    else checkRowWidths hlen (i + 1) rest

/-- The analyze endpoint's re-validation of an uploaded CSV: parse with
`parseCSVContent`, then reject empty headers, no rows, and fewer than two
rows (src/backend/dashboard/analyze.ts lines 161-200). -/
def analyzeValidateCSV (content : String) : Except String ParseResult :=
  match parseCSVContent content with
  | .error e => .error e
  | .ok pr =>
    if pr.headers.length = 0 then .error "No data columns found"
    else if pr.rows.length = 0 then .error "No data rows found"
    else if pr.rows.length < 2 then .error "Insufficient data for analysis"
    else .ok pr

/-- The number of non-blank data lines of a CSV text (lines after the
header, blank lines dropped). -/
def dataLineCount (content : String) : Int :=
  (((splitLines content).filter fun l => !(jsTrim l == "")).length : Int) - 1

/-! ## CSV parser lemmas and claims -/

/-- Every row accepted by the data-row loop has exactly `hlen` fields. -/
theorem parseRows_ok_length (hlen : Nat) (ls : List String) :
    ∀ (i : Nat) (rs : List (List String)), parseRows hlen i ls = .ok rs →
      ∀ r ∈ rs, r.length = hlen := by
  induction ls with
  | nil =>
    intro i rs h r hr
    unfold parseRows at h
    cases h
    simp at hr
  | cons l rest ih =>
    intro i rs h r hr
    simp only [parseRows] at h
    split at h
    · exact Except.noConfusion h
    · split at h
      · rename_i heq
        cases h
        rcases List.mem_cons.mp hr with hr | hr
        · subst hr
          omega
        · exact ih (i + 1) _ heq r hr
      · exact Except.noConfusion h

/-- The data-row loop returns one row per input line. -/
theorem parseRows_ok_count (hlen : Nat) (ls : List String) :
    ∀ (i : Nat) (rs : List (List String)), parseRows hlen i ls = .ok rs →
      rs.length = ls.length := by
  induction ls with
  | nil =>
    intro i rs h
    unfold parseRows at h
    cases h
    rfl
  | cons l rest ih =>
    intro i rs h
    simp only [parseRows] at h
    split at h
    · exact Except.noConfusion h
    · split at h
      · rename_i heq
        cases h
        simp [ih (i + 1) _ heq]
      · exact Except.noConfusion h

/-- C3: whenever CSV parsing succeeds, every row of the resulting table
has exactly as many fields as there are headers; a data line whose parsed
field count differs from the header count makes the whole parse fail, so
no parse result violates the invariant. -/
theorem c3_row_column_invariant (s : String) (pr : ParseResult)
    (hp : parseCSVContent s = .ok pr) :
    ∀ row ∈ pr.rows, row.length = pr.headers.length := by
  simp only [parseCSVContent] at hp
  repeat' first
  | exact Except.noConfusion hp
  | split at hp
  injection hp with h2
  subst h2
  intro row hr
  exact parseRows_ok_length _ _ _ _ (by assumption) row hr

/-- C3 witness: the invariant evaluated on a concrete parse. -/
theorem c3_row_column_invariant_witness :
    (["1", "2"] : List String).length = (["a", "b"] : List String).length :=
  c3_row_column_invariant "a,b\n1,2\n3,4" ⟨["a", "b"], [["1", "2"], ["3", "4"]]⟩
    (by rfl) ["1", "2"] (by decide)

/-- A successful `parseCSVContent` has one row per non-blank line after
the header line. -/
theorem parseCSVContent_ok_count (s : String) (pr : ParseResult)
    (hp : parseCSVContent s = .ok pr) :
    ((splitLines s).filter fun l => !(jsTrim l == "")).length = pr.rows.length + 1 := by
  simp only [parseCSVContent] at hp
  repeat' first
  | exact Except.noConfusion hp
  | split at hp
  rename_i l x xs hfil hx hhd hdup val rs hrows
  injection hp with h2
  subst h2
  rw [hfil]
  simp [parseRows_ok_count _ _ _ _ hrows]

/-- C9 counterexample: the upload validator and the analyze re-validation
do not agree: the 11-character CSV `a,b\n1,2\n3,4` has a 2-column header
and 2 data rows, is accepted by the analyze path, and is rejected by the
upload path (its 50-character minimum). -/
theorem c9_validators_disagree :
    isOkE (validateCSVContent "a,b\n1,2\n3,4") = false ∧
    isOkE (analyzeValidateCSV "a,b\n1,2\n3,4") = true := by decide

/-- C9 amended: both validation paths reject any input with fewer than 2
non-blank data lines, but they do not enforce the boundary identically
(the upload path additionally requires ≥ 50 characters, ≥ 2 naively
comma-split columns and non-empty headers while checking only the first 5
data rows; the analyze path parses quote-aware, rejects duplicate headers
and accepts single-column files). -/
theorem c9_both_require_two_rows (s : String) :
    (isOkE (validateCSVContent s) = true → 2 ≤ dataLineCount s) ∧
    (∀ pr, analyzeValidateCSV s = .ok pr → 2 ≤ dataLineCount s) := by
  constructor
  · intro h
    simp only [validateCSVContent] at h
    repeat' first
    | split at h
    | simp [isOkE] at h
    unfold dataLineCount
    omega
  · intro pr h
    unfold analyzeValidateCSV at h
    repeat' first
    | exact Except.noConfusion h
    | split at h
    injection h with h2
    subst h2
    have hc := parseCSVContent_ok_count s _ (by assumption)
    unfold dataLineCount
    omega

/-- C9 witness: a 56-character CSV accepted by the upload validator, and
the concrete table accepted by the analyze path, both with at least two
data lines. -/
theorem c9_both_require_two_rows_witness :
    2 ≤ dataLineCount "date,amount\n2024-01-01,100\n2024-01-02,200\n2024-01-03,300" ∧
    2 ≤ dataLineCount "a,b\n1,2\n3,4" :=
  ⟨(c9_both_require_two_rows _).1 (by decide),
   (c9_both_require_two_rows _).2 ⟨["a", "b"], [["1", "2"], ["3", "4"]]⟩ (by rfl)⟩

/-! ## Column classifiers (src/backend/dashboard/analyze.ts) -/

def dateKeywords : List String :=
  ["date", "time", "day", "month", "year", "created", "updated", "timestamp"]

/-- Embedding of `findDateColumns`. -/
def findDateColumns (headers : List String) : List String :=
  headers.filter fun header =>
    dateKeywords.any fun keyword => jsIncludes (jsLower header) keyword

def numericKeywords : List String :=
  ["count", "total", "sum", "amount", "value", "price", "cost", "revenue", "sales",
   "clicks", "impressions", "views", "sessions", "users", "conversion", "rate",
   "ctr", "cpc", "cpm", "roas", "roi", "bounce", "duration", "pages", "goal"]

/-- Embedding of `findNumericColumns`: keyword match on the header, or
more than 70% of a sample of up to 10 rows parse as numeric after
stripping `$`, `,`, `%`. -/
def findNumericColumns (headers : List String) (rows : List (List String)) : List String :=
  (headers.enum.filter fun p =>
    let lower := jsLower p.2
    let hasNumericKeyword := numericKeywords.any fun keyword => jsIncludes lower keyword
    let sampleSize := min 10 rows.length
    let numericCount := ((rows.take sampleSize).filter fun row =>
      let value := jsGet row p.1
      if value = "" then false
      else (jsParseFloat (stripFormatChars value)).isSome).length
    let isNumericColumn := decide ((numericCount : ℚ) > (sampleSize : ℚ) * (7 / 10))
    hasNumericKeyword || isNumericColumn).map Prod.snd

def categoricalKeywords : List String :=
  ["category", "type", "source", "medium", "campaign", "channel", "device",
   "browser", "country", "region", "city", "gender", "age", "segment",
   "status", "group", "class", "tag", "label"]

/-- Embedding of `findCategoricalColumns`: keyword match on the header,
or more than 1 and fewer than 80% of the sample-size distinct values over
a sample of up to 20 rows. -/
def findCategoricalColumns (headers : List String) (rows : List (List String)) : List String :=
  (headers.enum.filter fun p =>
    let lower := jsLower p.2
    let hasCategoricalKeyword := categoricalKeywords.any fun keyword => jsIncludes lower keyword
    let sampleSize := min 20 rows.length
    let uniqueCount := ((rows.take sampleSize).map fun row => jsGet row p.1).dedup.length
    let isGoodCategorical :=
      decide (uniqueCount > 1) && decide ((uniqueCount : ℚ) < (sampleSize : ℚ) * (8 / 10))
    hasCategoricalKeyword || isGoodCategorical).map Prod.snd

/-- Embedding of `parseNumericValue`: strips `$`, `,`, `%` and parses;
missing values and `NaN` both become `0` (never `NaN`). -/
def parseNumericValue (value : String) : ℚ :=
  if value = "" then 0
  else
    match jsParseFloat (stripFormatChars value) with
    | none => 0
    | some num => num

/-! ## Filter engine (src/backend/dashboard/analyze.ts, `applyFilters`) -/

structure DateRange where
  startDate : Option String
  endDate : Option String
deriving DecidableEq

structure FilterOptions where
  dateRange : Option DateRange
  selectedMetrics : Option (List String)
  selectedCategories : Option (List String)
  minValue : Option ℚ
  maxValue : Option ℚ
deriving DecidableEq

structure FilteredData where
  rows : List (List String)
  appliedFilters : List String
deriving DecidableEq

/-- `b ? new Date(b) : null` followed by a `<`/`>` comparison: a missing
or empty bound, or one the date parser rejects, never excludes a row. -/
def parsedBound (p : String → Option Int) (b : Option String) : Option Int :=
  match b with
  | some s => if s = "" then none else p s
  | none => none

/-- The row predicate of the date-range filter (fail-open on missing or
unparseable row dates). -/
def datePred (p : String → Option Int) (sOpt eOpt : Option String)
    (dateColIndex : Int) (row : List String) : Bool :=
  let dateValue := jsGet row dateColIndex
  if dateValue = "" then true
  else
    match p dateValue with
    | none => true
    | some d =>
      (match parsedBound p sOpt with
       | some sB => decide (sB ≤ d)
       | none => true) &&
      (match parsedBound p eOpt with
       | some eB => decide (d ≤ eB)
       | none => true)

/-- The row predicate of the category filter (fail-open on missing
values). -/
def catPred (cats : List String) (categoryColIndex : Int) (row : List String) : Bool :=
  let categoryValue := jsGet row categoryColIndex
  (categoryValue == "") || cats.contains categoryValue

/-- The row predicate of the numeric-range filter. `parseNumericValue`
never returns `NaN`, so the source's `isNaN(value)` fail-open guard is
dead code and missing or unparseable values are compared as `0`. -/
def numPred (mn mx : Option ℚ) (primaryMetricIndex : Int) (row : List String) : Bool :=
  let value := parseNumericValue (jsGet row primaryMetricIndex)
  (match mn with
   | some m => decide (m ≤ value)
   | none => true) &&
  (match mx with
   | some m => decide (value ≤ m)
   | none => true)

/-- Embedding of `applyFilters`: sequential date-range, category and
numeric-range stages; the category and numeric column choices are made
from the original `rows` argument, the filtering is sequential. -/
def applyFilters (p : String → Option Int) (headers : List String)
    (rows : List (List String)) (filters : Option FilterOptions) : FilteredData :=
  match filters with
  | none => ⟨rows, []⟩
  | some f =>
    let sOpt := f.dateRange.bind DateRange.startDate
    let eOpt := f.dateRange.bind DateRange.endDate
    let r1 :=
      if truthyS sOpt || truthyS eOpt then
        match findDateColumns headers with
        | [] => rows
        | c :: _ => rows.filter (datePred p sOpt eOpt (jsIndexOf headers c))
      else rows
    let a1 :=
      if truthyS sOpt || truthyS eOpt then
        match findDateColumns headers with
        | [] => ([] : List String)
        | _ :: _ => ["Date range: " ++ (sOpt.getD "start") ++ " to " ++ (eOpt.getD "end")]
      else []
    let a2 :=
      match f.selectedMetrics with
      | some ms => if ms.length > 0 then ["Selected metrics: " ++ String.intercalate ", " ms] else []
      | none => []
    let r2 :=
      match f.selectedCategories with
      | some cats =>
        if cats.length > 0 then
          match findCategoricalColumns headers rows with
          | [] => r1
          | c :: _ => r1.filter (catPred cats (jsIndexOf headers c))
        else r1
      | none => r1
    let a3 :=
      match f.selectedCategories with
      | some cats =>
        if cats.length > 0 then
          match findCategoricalColumns headers rows with
          | [] => ([] : List String)
          | _ :: _ => ["Categories: " ++ String.intercalate ", " cats]
        else []
      | none => []
    let r3 :=
      if f.minValue.isSome || f.maxValue.isSome then
        match findNumericColumns headers rows with
        | [] => r2
        | c :: _ => r2.filter (numPred f.minValue f.maxValue (jsIndexOf headers c))
      else r2
    let a4 :=
      if f.minValue.isSome || f.maxValue.isSome then
        match findNumericColumns headers rows with
        | [] => ([] : List String)
        | _ :: _ =>
          ["Value range: " ++ String.intercalate ", "
            ((match f.minValue with
              | some mn => ["min: " ++ toString mn]
              | none => []) ++
             (match f.maxValue with
              | some mx => ["max: " ++ toString mx]
              | none => []))]
      else []
    ⟨r3, a1 ++ a2 ++ a3 ++ a4⟩

/-! ## Filter-engine characterization -/

/-- The effective date-stage predicate of `applyFilters` (constantly true
when the stage does not run). -/
def dateKeep (p : String → Option Int) (headers : List String)
    (f : FilterOptions) : List String → Bool :=
  if truthyS (f.dateRange.bind DateRange.startDate)
      || truthyS (f.dateRange.bind DateRange.endDate) then
    match findDateColumns headers with
    | [] => fun _ => true
    | c :: _ =>
      datePred p (f.dateRange.bind DateRange.startDate)
        (f.dateRange.bind DateRange.endDate) (jsIndexOf headers c)
  else fun _ => true

/-- The effective category-stage predicate of `applyFilters` (the column
choice is made from the original rows). -/
def catKeep (headers : List String) (rows : List (List String))
    (f : FilterOptions) : List String → Bool :=
  match f.selectedCategories with
  | some cats =>
    if cats.length > 0 then
      match findCategoricalColumns headers rows with
      | [] => fun _ => true
      | c :: _ => catPred cats (jsIndexOf headers c)
    else fun _ => true
  | none => fun _ => true

/-- The effective numeric-stage predicate of `applyFilters` (the column
choice is made from the original rows). -/
def numKeep (headers : List String) (rows : List (List String))
    (f : FilterOptions) : List String → Bool :=
  if f.minValue.isSome || f.maxValue.isSome then
    match findNumericColumns headers rows with
    | [] => fun _ => true
    | c :: _ => numPred f.minValue f.maxValue (jsIndexOf headers c)
  else fun _ => true

/-- `applyFilters` is the sequential composition of the three stage
filters. -/
theorem applyFilters_some_rows (p : String → Option Int) (headers : List String)
    (rows : List (List String)) (f : FilterOptions) :
    (applyFilters p headers rows (some f)).rows
      = ((rows.filter (dateKeep p headers f)).filter
          (catKeep headers rows f)).filter (numKeep headers rows f) := by
  simp only [applyFilters, dateKeep, catKeep, numKeep]
  repeat' split
  all_goals simp

/-- Membership characterization of the filter engine. -/
theorem mem_applyFilters_some (p : String → Option Int) (headers : List String)
    (rows : List (List String)) (f : FilterOptions) (x : List String) :
    x ∈ (applyFilters p headers rows (some f)).rows ↔
      x ∈ rows ∧ dateKeep p headers f x = true ∧ catKeep headers rows f x = true
        ∧ numKeep headers rows f x = true := by
  rw [applyFilters_some_rows]
  simp only [List.mem_filter, and_assoc]

/-- A category list is effective only when present and non-empty (the
filter engine skips empty lists). -/
def effCats : Option (List String) → Option (List String)
  | some l => if l.length > 0 then some l else none
  | none => none

/-- The later (more restrictive) of two optional start-date strings,
judged by the date parser; a bound that is absent, empty or unparseable
imposes no constraint and loses. -/
def laterStart (p : String → Option Int) (a b : Option String) : Option String :=
  match parsedBound p a, parsedBound p b with
  | none, _ => b
  | some _, none => a
  | some x, some y => if y ≤ x then a else b

/-- The earlier (more restrictive) of two optional end-date strings. -/
def earlierEnd (p : String → Option Int) (a b : Option String) : Option String :=
  match parsedBound p a, parsedBound p b with
  | none, _ => b
  | some _, none => a
  | some x, some y => if x ≤ y then a else b

def conjDateRange (p : String → Option Int) :
    Option DateRange → Option DateRange → Option DateRange
  | none, b => b
  | some a, none => some a
  | some a, some b =>
    some ⟨laterStart p a.startDate b.startDate, earlierEnd p a.endDate b.endDate⟩

def conjCats (a b : Option (List String)) : Option (List String) :=
  match effCats a, effCats b with
  | none, _ => b
  | some _, none => a
  | some x, some y => some (x.filter fun v => y.contains v)

def conjOpt (g : ℚ → ℚ → ℚ) : Option ℚ → Option ℚ → Option ℚ
  | none, b => b
  | some a, none => some a
  | some a, some b => some (g a b)

def conjMetrics : Option (List String) → Option (List String) → Option (List String)
  | none, b => b
  | some a, none => some a
  | some a, some b => some (a ++ b)

/-- The conjunction of two filter specifications: both date bounds, the
intersection of the category sets, the tighter numeric bounds. -/
def conjSpec (p : String → Option Int) (a b : FilterOptions) : FilterOptions :=
  ⟨conjDateRange p a.dateRange b.dateRange,
   conjMetrics a.selectedMetrics b.selectedMetrics,
   conjCats a.selectedCategories b.selectedCategories,
   conjOpt max a.minValue b.minValue,
   conjOpt min a.maxValue b.maxValue⟩

def conjFilters (p : String → Option Int) :
    Option FilterOptions → Option FilterOptions → Option FilterOptions
  | none, b => b
  | some a, none => some a
  | some a, some b => some (conjSpec p a b)

/-- The one compatibility condition conjunction needs: when both specs
carry effective category sets, their intersection is non-empty. -/
def catsCompatible : Option FilterOptions → Option FilterOptions → Bool
  | some a, some b =>
    match effCats a.selectedCategories, effCats b.selectedCategories with
    | some x, some y => !((x.filter fun v => y.contains v) == [])
    | _, _ => true
  | _, _ => true

theorem parsedBound_truthy (p : String → Option Int) (o : Option String) (v : Int)
    (h : parsedBound p o = some v) : truthyS o = true := by
  cases o with
  | none => simp [parsedBound] at h
  | some s =>
    simp only [parsedBound] at h
    split at h
    · exact Option.noConfusion h
    · rename_i hs
      simp [truthyS, hs]

theorem parsedBound_laterStart (p : String → Option Int) (a b : Option String) (v : Int)
    (h : parsedBound p a = some v) :
    ∃ w, parsedBound p (laterStart p a b) = some w ∧ v ≤ w := by
  unfold laterStart
  rw [h]
  cases hb : parsedBound p b with
  | none => exact ⟨v, h, le_refl v⟩
  | some y =>
    by_cases hxy : y ≤ v
    · refine ⟨v, ?_, le_refl v⟩
      show parsedBound p (if y ≤ v then a else b) = some v
      rw [if_pos hxy]
      exact h
    · refine ⟨y, ?_, by omega⟩
      show parsedBound p (if y ≤ v then a else b) = some y
      rw [if_neg hxy]
      exact hb

theorem parsedBound_earlierEnd (p : String → Option Int) (a b : Option String) (v : Int)
    (h : parsedBound p a = some v) :
    ∃ w, parsedBound p (earlierEnd p a b) = some w ∧ w ≤ v := by
  unfold earlierEnd
  rw [h]
  cases hb : parsedBound p b with
  | none => exact ⟨v, h, le_refl v⟩
  | some y =>
    by_cases hxy : v ≤ y
    · refine ⟨v, ?_, le_refl v⟩
      show parsedBound p (if v ≤ y then a else b) = some v
      rw [if_pos hxy]
      exact h
    · refine ⟨y, ?_, by omega⟩
      show parsedBound p (if v ≤ y then a else b) = some y
      rw [if_neg hxy]
      exact hb



/-- A date filter whose both bounds are absent or unparseable keeps every
row. -/
theorem datePred_none (p : String → Option Int) (sOpt eOpt : Option String)
    (idx : Int) (x : List String) (hs : parsedBound p sOpt = none)
    (he : parsedBound p eOpt = none) : datePred p sOpt eOpt idx x = true := by
  unfold datePred
  by_cases hv : jsGet x idx = ""
  · simp [hv]
  · rw [if_neg hv]
    cases hd : p (jsGet x idx) with
    | none => rfl
    | some d => simp [hs, he]

/-- The conjoined date bounds imply the first spec's date bounds. -/
theorem datePred_conj (p : String → Option Int) (a b : DateRange) (idx : Int)
    (x : List String)
    (hc : datePred p (laterStart p a.startDate b.startDate)
        (earlierEnd p a.endDate b.endDate) idx x = true) :
    datePred p a.startDate a.endDate idx x = true := by
  unfold datePred at hc ⊢
  by_cases hv : jsGet x idx = ""
  · simp [hv]
  · rw [if_neg hv] at hc ⊢
    cases hd : p (jsGet x idx) with
    | none => rfl
    | some d =>
      simp only [hd] at hc
      simp only [Bool.and_eq_true] at hc ⊢
      obtain ⟨hc1, hc2⟩ := hc
      constructor
      · cases hsa : parsedBound p a.startDate with
        | none => rfl
        | some sB =>
          obtain ⟨w, hw, hle⟩ := parsedBound_laterStart p a.startDate b.startDate sB hsa
          simp only [hw] at hc1
          simp only [decide_eq_true_eq] at hc1 ⊢
          omega
      · cases hea : parsedBound p a.endDate with
        | none => rfl
        | some eB =>
          obtain ⟨w, hw, hle⟩ := parsedBound_earlierEnd p a.endDate b.endDate eB hea
          simp only [hw] at hc2
          simp only [decide_eq_true_eq] at hc2 ⊢
          omega

/-- The conjoined spec's date stage keeps only rows the first spec's date
stage keeps. -/
theorem dateKeep_conj (p : String → Option Int) (h : List String)
    (A B : FilterOptions) (x : List String)
    (hc : dateKeep p h (conjSpec p A B) x = true) : dateKeep p h A x = true := by
  simp only [dateKeep, conjSpec] at hc ⊢
  cases hAdr : A.dateRange with
  | none => simp [hAdr, truthyS]
  | some a =>
    cases hBdr : B.dateRange with
    | none =>
      simp only [hAdr, hBdr, conjDateRange] at hc ⊢
      exact hc
    | some b =>
      simp only [hAdr, hBdr, conjDateRange, Option.some_bind] at hc ⊢
      by_cases hA : (truthyS a.startDate || truthyS a.endDate) = true
      · rw [if_pos hA]
        cases hcols : findDateColumns h with
        | nil => rfl
        | cons c cs =>
          by_cases hcc : (truthyS (laterStart p a.startDate b.startDate)
              || truthyS (earlierEnd p a.endDate b.endDate)) = true
          · rw [if_pos hcc, hcols] at hc
            exact datePred_conj p a b (jsIndexOf h c) x hc
          · have hsa : parsedBound p a.startDate = none := by
              cases hq : parsedBound p a.startDate with
              | none => rfl
              | some v =>
                obtain ⟨w, hw, _⟩ := parsedBound_laterStart p a.startDate b.startDate v hq
                have ht := parsedBound_truthy p _ w hw
                simp [ht] at hcc
            have hea : parsedBound p a.endDate = none := by
              cases hq : parsedBound p a.endDate with
              | none => rfl
              | some v =>
                obtain ⟨w, hw, _⟩ := parsedBound_earlierEnd p a.endDate b.endDate v hq
                have ht := parsedBound_truthy p _ w hw
                simp [ht] at hcc
            exact datePred_none p a.startDate a.endDate (jsIndexOf h c) x hsa hea
      · rw [if_neg hA]

/-- A category filter over a larger set keeps at least as much. -/
theorem catPred_subset (l1 l2 : List String) (idx : Int) (x : List String)
    (hsub : ∀ v, v ∈ l1 → v ∈ l2) (hc : catPred l1 idx x = true) :
    catPred l2 idx x = true := by
  unfold catPred at hc ⊢
  rw [Bool.or_eq_true] at hc ⊢
  rcases hc with hc | hc
  · exact Or.inl hc
  · right
    have hm : jsGet x idx ∈ l1 := by simpa using hc
    simpa using hsub _ hm

/-- Under the category-compatibility condition, the conjoined spec's
category stage keeps only rows the first spec's category stage keeps. -/
theorem catKeep_conj (p : String → Option Int) (h : List String)
    (r : List (List String)) (A B : FilterOptions) (x : List String)
    (hcompat : catsCompatible (some A) (some B) = true)
    (hc : catKeep h r (conjSpec p A B) x = true) : catKeep h r A x = true := by
  simp only [catKeep, conjSpec] at hc ⊢
  cases hAc : A.selectedCategories with
  | none => rfl
  | some cats =>
    simp only [hAc] at hc ⊢
    by_cases hlen : cats.length > 0
    · rw [if_pos hlen]
      cases hcols : findCategoricalColumns h r with
      | nil => rfl
      | cons c cs =>
        have heA2 : effCats (some cats) = some cats := by
          simp [effCats, hlen]
        cases heB : effCats B.selectedCategories with
        | none =>
          have hcc : conjCats (some cats) B.selectedCategories = some cats := by
            unfold conjCats
            rw [heA2, heB]
          simp only [hcc] at hc
          rw [if_pos hlen, hcols] at hc
          exact hc
        | some ys =>
          have hcc : conjCats (some cats) B.selectedCategories
              = some (cats.filter fun v => ys.contains v) := by
            unfold conjCats
            rw [heA2, heB]
          simp only [catsCompatible, hAc, heA2, heB] at hcompat
          have hne : (cats.filter fun v => ys.contains v) ≠ [] := by
            simpa using hcompat
          have hlen2 : (cats.filter fun v => ys.contains v).length > 0 :=
            List.length_pos.mpr hne
          simp only [hcc] at hc
          rw [if_pos hlen2, hcols] at hc
          refine catPred_subset _ cats (jsIndexOf h c) x (fun v hv => ?_) hc
          exact (List.mem_filter.mp hv).1
    · rw [if_neg hlen]

/-- The conjoined spec's numeric stage keeps only rows the first spec's
numeric stage keeps. -/
theorem numKeep_conj (p : String → Option Int) (h : List String)
    (r : List (List String)) (A B : FilterOptions) (x : List String)
    (hc : numKeep h r (conjSpec p A B) x = true) : numKeep h r A x = true := by
  simp only [numKeep, conjSpec] at hc ⊢
  by_cases hA : (A.minValue.isSome || A.maxValue.isSome) = true
  · rw [if_pos hA]
    cases hcols : findNumericColumns h r with
    | nil => rfl
    | cons c cs =>
      have hactive : ((conjOpt max A.minValue B.minValue).isSome
          || (conjOpt min A.maxValue B.maxValue).isSome) = true := by
        rw [Bool.or_eq_true] at hA ⊢
        rcases hA with hA | hA
        · left
          cases hm : A.minValue with
          | none => rw [hm] at hA; simp at hA
          | some m => cases B.minValue <;> simp [conjOpt, hm]
        · right
          cases hm : A.maxValue with
          | none => rw [hm] at hA; simp at hA
          | some m => cases B.maxValue <;> simp [conjOpt, hm]
      rw [if_pos hactive, hcols] at hc
      unfold numPred at hc ⊢
      rw [Bool.and_eq_true] at hc ⊢
      obtain ⟨hc1, hc2⟩ := hc
      constructor
      · cases hm : A.minValue with
        | none => rfl
        | some m =>
          cases hbm : B.minValue with
          | none =>
            rw [hm, hbm] at hc1
            simpa [conjOpt] using hc1
          | some bm =>
            rw [hm, hbm] at hc1
            simp only [conjOpt, decide_eq_true_eq] at hc1
            simp only [decide_eq_true_eq]
            exact le_trans (le_max_left m bm) hc1
      · cases hm : A.maxValue with
        | none => rfl
        | some m =>
          cases hbm : B.maxValue with
          | none =>
            rw [hm, hbm] at hc2
            simpa [conjOpt] using hc2
          | some bm =>
            rw [hm, hbm] at hc2
            simp only [conjOpt, decide_eq_true_eq] at hc2
            simp only [decide_eq_true_eq]
            exact le_trans hc2 (min_le_left m bm)
  · rw [if_neg hA]



/-- C4 counterexample: with `specA = {categories: ["a"]}` and
`specB = {categories: ["b"]}` the conjoined category set is empty, which
the filter engine treats as "no constraint", so the conjoined result is
not a subset of `specA`'s result. -/
theorem c4_conj_not_subset :
    ["c"] ∈ (applyFilters (fun _ => none) ["category"] [["c"]]
        (conjFilters (fun _ => none)
          (some ⟨none, none, some ["a"], none, none⟩)
          (some ⟨none, none, some ["b"], none, none⟩))).rows ∧
    ["c"] ∉ (applyFilters (fun _ => none) ["category"] [["c"]]
        (some ⟨none, none, some ["a"], none, none⟩)).rows := by
  with_unfolding_all decide

/-- C4 amended: whenever the two specifications do not carry effective
category sets with empty intersection, the rows returned for the
conjoined specification are a subset of the rows returned for the first
specification alone. -/
theorem c4_filter_monotone (p : String → Option Int) (headers : List String)
    (rows : List (List String)) (A B : Option FilterOptions)
    (hcompat : catsCompatible A B = true) :
    (applyFilters p headers rows (conjFilters p A B)).rows ⊆
      (applyFilters p headers rows A).rows := by
  cases A with
  | none =>
    intro x hx
    cases B with
    | none => exact hx
    | some b =>
      simp only [conjFilters] at hx
      exact ((mem_applyFilters_some p headers rows b x).mp hx).1
  | some a =>
    cases B with
    | none => intro x hx; exact hx
    | some b =>
      intro x hx
      simp only [conjFilters] at hx
      rw [mem_applyFilters_some] at hx ⊢
      obtain ⟨hmem, hd, hcat, hnum⟩ := hx
      exact ⟨hmem, dateKeep_conj p headers a b x hd,
        catKeep_conj p headers rows a b x hcompat hcat,
        numKeep_conj p headers rows a b x hnum⟩

/-- C4 witness: a compatible pair of category filters evaluated
concretely. -/
theorem c4_filter_monotone_witness :
    catsCompatible (some ⟨none, none, some ["x", "y"], none, none⟩)
        (some ⟨none, none, some ["y"], none, none⟩) = true ∧
    (applyFilters (fun _ => none) ["category"] [["y"], ["x"]]
        (conjFilters (fun _ => none)
          (some ⟨none, none, some ["x", "y"], none, none⟩)
          (some ⟨none, none, some ["y"], none, none⟩))).rows ⊆
      (applyFilters (fun _ => none) ["category"] [["y"], ["x"]]
        (some ⟨none, none, some ["x", "y"], none, none⟩)).rows :=
  ⟨by with_unfolding_all decide,
   c4_filter_monotone _ _ _ _ _ (by with_unfolding_all decide)⟩

/-- The category stage only looks at the first categorical column. -/
theorem catKeep_congr (headers : List String) (r1 r2 : List (List String))
    (f : FilterOptions)
    (hh : (findCategoricalColumns headers r1).head?
      = (findCategoricalColumns headers r2).head?) :
    catKeep headers r1 f = catKeep headers r2 f := by
  unfold catKeep
  cases hsc : f.selectedCategories with
  | none => rfl
  | some cats =>
    cases h1 : findCategoricalColumns headers r1 with
    | nil =>
      cases h2 : findCategoricalColumns headers r2 with
      | nil => rfl
      | cons c2 cs2 => rw [h1, h2] at hh; simp at hh
    | cons c cs =>
      cases h2 : findCategoricalColumns headers r2 with
      | nil => rw [h1, h2] at hh; simp at hh
      | cons c2 cs2 =>
        rw [h1, h2] at hh
        simp only [List.head?_cons, Option.some.injEq] at hh
        subst hh
        rfl

/-- The numeric stage only looks at the first numeric column. -/
theorem numKeep_congr (headers : List String) (r1 r2 : List (List String))
    (f : FilterOptions)
    (hh : (findNumericColumns headers r1).head?
      = (findNumericColumns headers r2).head?) :
    numKeep headers r1 f = numKeep headers r2 f := by
  unfold numKeep
  cases h1 : findNumericColumns headers r1 with
  | nil =>
    cases h2 : findNumericColumns headers r2 with
    | nil => rfl
    | cons c2 cs2 => rw [h1, h2] at hh; simp at hh
  | cons c cs =>
    cases h2 : findNumericColumns headers r2 with
    | nil => rw [h1, h2] at hh; simp at hh
    | cons c2 cs2 =>
      rw [h1, h2] at hh
      simp only [List.head?_cons, Option.some.injEq] at hh
      subst hh
      rfl



/-- C7 counterexample: re-applying `{minValue: 5}` to the already
filtered rows of the table `x, amount` drops a further row, because the
second pass recomputes the numeric columns from the filtered rows and
the first numeric column changes from `amount` to `x`. -/
theorem c7_refilter_drops_row :
    (applyFilters (fun _ => none) ["x", "amount"]
        (applyFilters (fun _ => none) ["x", "amount"]
          [["2", "10"], ["abc", "1"], ["7", "10"]]
          (some ⟨none, none, none, some 5, none⟩)).rows
        (some ⟨none, none, none, some 5, none⟩)).rows ≠
      (applyFilters (fun _ => none) ["x", "amount"]
        [["2", "10"], ["abc", "1"], ["7", "10"]]
        (some ⟨none, none, none, some 5, none⟩)).rows := by
  with_unfolding_all decide

/-- C7 amended: re-applying the same specification to an already
filtered result is the identity provided the first categorical and first
numeric columns computed from the filtered rows coincide with those
computed from the original rows (the date column depends only on the
headers). -/
theorem c7_refilter_fixed_point (p : String → Option Int) (headers : List String)
    (rows : List (List String)) (F : Option FilterOptions)
    (hnum : (findNumericColumns headers (applyFilters p headers rows F).rows).head?
      = (findNumericColumns headers rows).head?)
    (hcat : (findCategoricalColumns headers (applyFilters p headers rows F).rows).head?
      = (findCategoricalColumns headers rows).head?) :
    (applyFilters p headers (applyFilters p headers rows F).rows F).rows
      = (applyFilters p headers rows F).rows := by
  cases F with
  | none => rfl
  | some f =>
    have hck := catKeep_congr headers (applyFilters p headers rows (some f)).rows rows f hcat
    have hnk := numKeep_congr headers (applyFilters p headers rows (some f)).rows rows f hnum
    rw [applyFilters_some_rows p headers (applyFilters p headers rows (some f)).rows f,
      hck, hnk]
    have hd : ∀ x ∈ (applyFilters p headers rows (some f)).rows,
        dateKeep p headers f x = true := fun x hx =>
      ((mem_applyFilters_some p headers rows f x).mp hx).2.1
    have hc : ∀ x ∈ (applyFilters p headers rows (some f)).rows,
        catKeep headers rows f x = true := fun x hx =>
      ((mem_applyFilters_some p headers rows f x).mp hx).2.2.1
    have hn : ∀ x ∈ (applyFilters p headers rows (some f)).rows,
        numKeep headers rows f x = true := fun x hx =>
      ((mem_applyFilters_some p headers rows f x).mp hx).2.2.2
    rw [List.filter_eq_self.mpr hd]
    rw [List.filter_eq_self.mpr hc]
    rw [List.filter_eq_self.mpr hn]

/-- C7 witness: a numeric filter whose first numeric and categorical
columns are unchanged by filtering, evaluated concretely. -/
theorem c7_refilter_fixed_point_witness :
    (findNumericColumns ["amount"]
        (applyFilters (fun _ => none) ["amount"] [["10"], ["7"]]
          (some ⟨none, none, none, some 5, none⟩)).rows).head?
      = (findNumericColumns ["amount"] [["10"], ["7"]]).head? ∧
    (applyFilters (fun _ => none) ["amount"]
        (applyFilters (fun _ => none) ["amount"] [["10"], ["7"]]
          (some ⟨none, none, none, some 5, none⟩)).rows
        (some ⟨none, none, none, some 5, none⟩)).rows
      = (applyFilters (fun _ => none) ["amount"] [["10"], ["7"]]
          (some ⟨none, none, none, some 5, none⟩)).rows :=
  ⟨by with_unfolding_all decide,
   c7_refilter_fixed_point _ _ _ _ (by with_unfolding_all decide)
     (by with_unfolding_all decide)⟩

/-- C5 (code evaluation at the failing input): a row whose value in the
first numeric column is unparseable is treated as `0` by
`parseNumericValue`, so with `minValue = 5` the numeric-range filter
excludes it instead of keeping it fail-open; the `isNaN` guard in the
source is dead code. -/
theorem c5_unparseable_row_excluded :
    (applyFilters (fun _ => none) ["amount"] [["abc"]]
        (some ⟨none, none, none, some 5, none⟩)).rows = [] ∧
    parseNumericValue "abc" = 0 := by with_unfolding_all decide

/-! ## Chart builder (src/backend/dashboard/analyze.ts, `generateChartData`) -/

structure ChartDataPoint where
  label : String
  value : ℚ
  date : Option String
  category : Option String
deriving DecidableEq

structure ChartData where
  type : String
  title : String
  data : List ChartDataPoint
  xAxisLabel : Option String
  yAxisLabel : Option String
  colors : Option (List String)
deriving DecidableEq

/-- `formatDateLabel`: an unparseable date string is returned as is; the
locale rendering of a valid date is abstracted as `fmt`. -/
def formatDateLabel (p : String → Option Int) (fmt : Int → String) (dateStr : String) : String :=
  match p dateStr with
  | none => dateStr
  | some t => fmt t

/-- Stable insertion, ascending by an integer key. -/
def insertAsc (key : ChartDataPoint → Int) (x : ChartDataPoint) :
    List ChartDataPoint → List ChartDataPoint
  | [] => [x]
  | y :: ys => if key y < key x then y :: insertAsc key x ys else x :: y :: ys

/-- Stable sort of the time-series points (models the stable JS
`sort((a, b) => dateKey a - dateKey b)`; a missing or unparseable date
gets key 0). -/
def sortAscByKey (key : ChartDataPoint → Int) (l : List ChartDataPoint) :
    List ChartDataPoint :=
  l.foldr (insertAsc key) []

/-- Stable insertion, descending by value. -/
def insertDesc (x : String × ℚ) : List (String × ℚ) → List (String × ℚ)
  | [] => [x]
  | y :: ys => if x.2 < y.2 then y :: insertDesc x ys else x :: y :: ys

/-- Stable sort of grouped sums (models `sort(([,a],[,b]) => b - a)`). -/
def sortDescByValue (l : List (String × ℚ)) : List (String × ℚ) :=
  l.foldr insertDesc []

/-- `label.length > n ? label.substring(0, n) + \'...\' : label`. -/
def truncateLabel (n : Nat) (label : String) : String :=
  if label.length > n then (⟨label.data.take n⟩ : String) ++ "..." else label

/-- The grouped-sum accumulation of the bar/pie sections: rows with a
falsy group value or (dead-guard) `NaN` are skipped, sums accumulate per
group in insertion order (the JS-object reordering of integer-like keys
is not modelled; it affects only tie order after the stable sort). -/
def groupSums (groupingIndex valueIndex : Int) (rows : List (List String)) :
    List (String × ℚ) :=
  rows.foldl (fun acc row =>
    let group := jsGet row groupingIndex
    let value := parseNumericValue (jsGet row valueIndex)
    if group = "" then acc
    else jsObjSet acc group ((acc.lookup group).getD 0 + value)) []

/-- Embedding of `generateChartData`: time-series line charts (up to 3),
a grouped bar chart, a categorical pie chart and a multi-metric
comparison bar chart, concatenated in push order. The `isNaN` guards on
`parseNumericValue` results are dead code (it never returns `NaN`), so a
row with a truthy date and an unparseable numeric value contributes a
point with value `0`. -/
def generateChartData (p : String → Option Int) (fmt : Int → String)
    (headers : List String) (rows : List (List String)) (reportType : String) :
    List ChartData :=
  let dateColumns := findDateColumns headers
  let numericColumns := findNumericColumns headers rows
  let categoricalColumns := findCategoricalColumns headers rows
  let lineCharts :=
    match dateColumns, numericColumns with
    | dateCol :: _, _ :: _ =>
      (numericColumns.take 3).filterMap fun numericCol =>
        let dateIndex := jsIndexOf headers dateCol
        let numericIndex := jsIndexOf headers numericCol
        let timeSeriesData := rows.filterMap fun row =>
          let dateValue := jsGet row dateIndex
          let numericValue := parseNumericValue (jsGet row numericIndex)
          if dateValue = "" then none
          else some (ChartDataPoint.mk (formatDateLabel p fmt dateValue)
            numericValue (some dateValue) none)
        if timeSeriesData.length > 1 then
          some (ChartData.mk "line" (numericCol ++ " Over Time")
            (sortAscByKey (fun pt => (p (pt.date.getD "")).getD 0) timeSeriesData)
            (some "Date") (some numericCol) (some ["#3b82f6"]))
        else none
    | _, _ => []
  let barCharts :=
    match numericColumns with
    | [] => []
    | primaryMetric :: _ =>
      let metricIndex := jsIndexOf headers primaryMetric
      let fallbackCol := headers.find? fun x =>
        !(numericColumns.contains x) && !(dateColumns.contains x)
      let groupingCol :=
        match categoricalColumns with
        | c :: _ => if c = "" then fallbackCol else some c
        | [] => fallbackCol
      match groupingCol with
      | none => []
      | some g =>
        if g = "" then []
        else
          let groupingIndex := jsIndexOf headers g
          let barData := ((sortDescByValue (groupSums groupingIndex metricIndex rows)).take 10).map
            fun e => ChartDataPoint.mk (truncateLabel 20 e.1) e.2 none none
          if barData.length > 1 then
            [ChartData.mk "bar" ("Top " ++ g ++ " by " ++ primaryMetric) barData
              (some g) (some primaryMetric) (some ["#10b981"])]
          else []
  let pieCharts :=
    match categoricalColumns, numericColumns with
    | categoryCol :: _, valueCol :: _ =>
      let categoryIndex := jsIndexOf headers categoryCol
      let valueIndex := jsIndexOf headers valueCol
      let pieData := ((sortDescByValue (groupSums categoryIndex valueIndex rows)).take 8).map
        fun e => ChartDataPoint.mk (truncateLabel 15 e.1) e.2 none none
      if pieData.length > 1 then
        [ChartData.mk "pie" (valueCol ++ " Distribution by " ++ categoryCol) pieData
          none none (some ["#3b82f6", "#ef4444", "#10b981", "#f59e0b",
            "#8b5cf6", "#06b6d4", "#84cc16", "#f97316"])]
      else []
    | _, _ => []
  let comparisonCharts :=
    if numericColumns.length > 1 then
      let comparisonData := (numericColumns.take 5).map fun col =>
        ChartDataPoint.mk (truncateLabel 15 col)
          (rows.foldl (fun sum row =>
            sum + parseNumericValue (jsGet row (jsIndexOf headers col))) 0) none none
      if comparisonData.length > 1 then
        [ChartData.mk "bar" "Metrics Comparison" comparisonData
          (some "Metrics") (some "Total Value") (some ["#6366f1"])]
      else []
    else []
  lineCharts ++ barCharts ++ pieCharts ++ comparisonCharts

/-- C6 (code evaluation at the failing input): the table
`day, clicks` with rows `[Jan-01, 10]` and `[Jan-02, abc]` has only one
valid (date, value) pair (`abc` is unparseable), yet `generateChartData`
emits a line chart with 2 points: the unparseable numeric value is
coerced to 0 by `parseNumericValue` and the `!isNaN(numericValue)` skip
guard is dead code. -/
theorem c6_line_chart_despite_single_valid_pair :
    ((generateChartData
        (fun s => if s = "Jan-01" then some 100
          else if s = "Jan-02" then some 200 else none)
        (fun _ => "") ["day", "clicks"] [["Jan-01", "10"], ["Jan-02", "abc"]]
        "general").map fun c => (c.type, c.data.length)) = [("line", 2)] ∧
    jsParseFloat (stripFormatChars "abc") = none := by
  with_unfolding_all decide

/-! ## AI response parsing and fallback (src/backend/dashboard/analyze.ts) -/

/-- JSON values (the possible results of `JSON.parse`; JSON has no `NaN`
or `undefined`). Object field lists are produced by the parser with
unique keys. -/
inductive Json where
  | null
  | bool (b : Bool)
  | num (q : ℚ)
  | str (s : String)
  | arr (elems : List Json)
  | obj (fields : List (String × Json))

/-- JS property access `j[k]` (`none` is `undefined`). -/
def Json.getField (j : Json) (k : String) : Option Json :=
  match j with
  | .obj fields => (fields.find? fun f => f.1 == k).map Prod.snd
  | _ => none

/-- JS truthiness of a JSON value. -/
def jsFalsy : Json → Bool
  | .null => true
  | .bool b => !b
  | .num q => q == 0
  | .str s => s == ""
  | .arr _ => false
  | .obj _ => false

/-- `typeof j === \'object\'` (true for null, arrays and objects). -/
def typeofObject : Json → Bool
  | .null => true
  | .arr _ => true
  | .obj _ => true
  | _ => false

/-- `Object.entries` (objects: field order; arrays: indexed; primitive
values have no own enumerable entries apart from string indices). -/
def jsEntries : Json → List (String × Json)
  | .obj fields => fields
  | .arr elems => elems.enum.map fun e => (toString e.1, e.2)
  | .str s => s.data.enum.map fun e => (toString e.1, Json.str ⟨[e.2]⟩)
  | _ => []

structure Insight where
  category : String
  title : String
  description : String
  impact : String
  metrics : Option Json

structure Recommendation where
  title : String
  description : String
  priority : String
  effort : String
  expectedImpact : String

/-- Embedding of `validateInsight`: falsy and non-object values are
rejected (`null`), anything else is kept with per-field defaulting. -/
def validateInsight (insight : Json) : Option Insight :=
  if jsFalsy insight || !typeofObject insight then none
  else some
    { category := match insight.getField "category" with
        | some (.str s) => s
        | _ => "General"
      title := match insight.getField "title" with
        | some (.str s) => s
        | _ => "Insight"
      description := match insight.getField "description" with
        | some (.str s) => s
        | _ => "No description available"
      impact := match insight.getField "impact" with
        | some (.str s) => if ["high", "medium", "low"].contains s then s else "medium"
        | _ => "medium"
      metrics := match insight.getField "metrics" with
        | some m => if !jsFalsy m && typeofObject m then some m else none
        | none => none }

/-- Embedding of `validateRecommendation`. -/
def validateRecommendation (recommendation : Json) : Option Recommendation :=
  if jsFalsy recommendation || !typeofObject recommendation then none
  else some
    { title := match recommendation.getField "title" with
        | some (.str s) => s
        | _ => "Recommendation"
      description := match recommendation.getField "description" with
        | some (.str s) => s
        | _ => "No description available"
      priority := match recommendation.getField "priority" with
        | some (.str s) => if ["high", "medium", "low"].contains s then s else "medium"
        | _ => "medium"
      effort := match recommendation.getField "effort" with
        | some (.str s) => if ["low", "medium", "high"].contains s then s else "medium"
        | _ => "medium"
      expectedImpact := match recommendation.getField "expectedImpact" with
        | some (.str s) => s
        | _ => "Positive impact expected" }

/-- `aiResponse.match(/\x7b[\s\S]*\x7d/)`: the substring from the first
opening brace to the last closing brace, if any. -/
def extractJsonBlock (s : String) : Option String :=
  let fromBrace := s.data.dropWhile fun c => !(c = Char.ofNat 123)
  if fromBrace = [] then none
  else
    let upToBrace := (fromBrace.reverse.dropWhile fun c => !(c = Char.ofNat 125)).reverse
    if upToBrace = [] then none else some ⟨upToBrace⟩

/-- The structured result of the response-validation step (charts, raw
data and data summary are attached separately by the endpoint). -/
structure AIResult where
  insights : List Insight
  recommendations : List Recommendation
  summary : String
  keyMetrics : List (String × ℚ)

def aiMetricKeywords : List String :=
  ["session", "user", "revenue", "conversion", "click", "impression",
   "view", "cost", "ctr", "rate"]

/-- One step of the metric-column summation loop in `parseAIResponse`
(the inline cleaning is the same computation as `parseNumericValue`). -/
def aiAddMetric (headers : List String) (rows : List (List String))
    (acc : List (String × ℚ)) (col : String) : List (String × ℚ) :=
  let colIndex := jsIndexOf headers col
  if colIndex ≠ -1 then
    let values := (rows.map fun row => parseNumericValue (jsGet row colIndex)).filter
      fun v => !(v == 0)
    if values.length > 0 then jsObjSet acc col (values.foldl (fun sum val => sum + val) 0)
    else acc
  else acc

/-- The success path of `parseAIResponse` after the object check:
deterministic column sums merged with the reply\'s numeric `keyMetrics`
(reply values win per key), insights and recommendations individually
validated, non-objects dropped by `.filter(Boolean)`. -/
def buildAIResult (parsed : Json) (headers : List String)
    (rows : List (List String)) : AIResult :=
  let metricColumns := headers.filter fun h =>
    aiMetricKeywords.any fun keyword => jsIncludes (jsLower h) keyword
  let keyMetrics := metricColumns.foldl (aiAddMetric headers rows) []
  let aiMetrics :=
    match parsed.getField "keyMetrics" with
    | some m => if jsFalsy m then [] else jsEntries m
    | none => []
  let finalMetrics := aiMetrics.foldl (fun acc e =>
    match e.2 with
    | .num q => jsObjSet acc e.1 q
    | _ => acc) keyMetrics
  { insights :=
      match parsed.getField "insights" with
      | some (.arr l) => l.filterMap validateInsight
      | _ => []
    recommendations :=
      match parsed.getField "recommendations" with
      | some (.arr l) => l.filterMap validateRecommendation
      | _ => []
    summary :=
      match parsed.getField "summary" with
      | some (.str s) => s
      | _ => "Analysis completed successfully."
    keyMetrics := finalMetrics }

/-- Embedding of `parseAIResponse`; `JSON.parse` is abstracted as the
parameter `jp` (`none` models a parse error). -/
def parseAIResponse (jp : String → Option Json) (aiResponse : String)
    (headers : List String) (rows : List (List String)) : Except String AIResult :=
  if jsTrim aiResponse = "" then .error "Empty AI response"
  else
    match extractJsonBlock aiResponse with
    | none => .error "No valid JSON found in AI response"
    | some js =>
      match jp js with
      | none => .error "Invalid JSON in AI response"
      | some parsed =>
        if jsFalsy parsed || !typeofObject parsed then
          .error "AI response is not a valid object"
        else .ok (buildAIResult parsed headers rows)

/-- One step of the fallback numeric-column summation (`forEach` over
headers with index; a column qualifies when more than 50% of its values
are non-zero numerics). -/
def fallbackAddMetric (rows : List (List String)) (acc : List (String × ℚ))
    (e : Nat × String) : List (String × ℚ) :=
  let values := (rows.map fun row => parseNumericValue (jsGet row (e.1 : Int))).filter
    fun v => !(v == 0)
  if values.length > 0 ∧ (values.length : ℚ) > (rows.length : ℚ) * (5 / 10) then
    jsObjSet acc e.2 (values.foldl (fun sum val => sum + val) 0)
  else acc

/-- Embedding of `createFallbackAnalysis`: the deterministic analysis
used when the AI reply cannot be parsed. -/
def createFallbackAnalysis (headers : List String) (rows : List (List String))
    (reportType : String) : AIResult :=
  let insights : List Insight :=
    [{ category := "Data Overview"
       title := "Data Successfully Processed"
       description := "Your " ++ reportType ++ " report contains "
         ++ toString rows.length ++ " rows of data with " ++ toString headers.length
         ++ " columns. The data includes metrics such as: "
         ++ String.intercalate ", " (headers.take 5)
         ++ (if headers.length > 5 then ", and more" else "") ++ "."
       impact := "medium"
       metrics := some (.obj [("total_rows", .num rows.length),
         ("total_columns", .num headers.length)]) }]
  let recommendations : List Recommendation :=
    [{ title := "Review Data Quality"
       description := "Ensure all important metrics are being tracked consistently across your reporting periods. Look for any missing data points or anomalies."
       priority := "medium"
       effort := "low"
       expectedImpact := "Improved data reliability and more accurate insights" },
     { title := "Set Up Regular Analysis"
       description := "Consider setting up automated reporting to track these metrics on a regular basis for better trend analysis."
       priority := "low"
       effort := "medium"
       expectedImpact := "Better understanding of performance trends over time" }]
  let keyMetrics : List (String × ℚ) :=
    [("total_rows", (rows.length : ℚ)), ("total_columns", (headers.length : ℚ))]
  let keyMetrics := headers.enum.foldl (fallbackAddMetric rows) keyMetrics
  { insights := insights
    recommendations := recommendations
    summary := "Analysis completed for your " ++ reportType ++ " report. The dataset contains "
      ++ toString rows.length ++ " rows and " ++ toString headers.length
      ++ " columns of data. While AI analysis was not available, the data has been successfully processed and basic metrics have been calculated."
    keyMetrics := keyMetrics }

/-- The response-validation step of the `analyze` endpoint: the AI reply
is parsed, and any parse failure falls back to the deterministic
analysis. -/
def responseValidationStep (jp : String → Option Json) (aiResponse : String)
    (headers : List String) (rows : List (List String)) (reportType : String) :
    AIResult :=
  match parseAIResponse jp aiResponse headers rows with
  | .ok r => r
  | .error _ => createFallbackAnalysis headers rows reportType

end Dashboard

namespace Dashboard

/-- JS object assignment preserves the presence of every key. -/
theorem jsObjSet_lookup_isSome (l : List (String × ℚ)) (k : String) (v : ℚ)
    (k2 : String) (h : (l.lookup k2).isSome = true) :
    ((jsObjSet l k v).lookup k2).isSome = true := by
  induction l with
  | nil => simp at h
  | cons e rest ih =>
    obtain ⟨k1, v1⟩ := e
    simp only [jsObjSet]
    by_cases hk : k1 = k
    · rw [if_pos hk]
      subst hk
      cases h2 : (k2 == k1) with
      | true => simp [List.lookup, h2]
      | false =>
        simp only [List.lookup, h2, cond_false] at h ⊢
        exact h
    · rw [if_neg hk]
      cases h2 : (k2 == k1) with
      | true => simp [List.lookup, h2]
      | false =>
        simp only [List.lookup, h2, cond_false] at h ⊢
        exact ih h

/-- A fold of key-preserving steps preserves the presence of every key. -/
theorem foldl_lookup_isSome {α : Type} (step : List (String × ℚ) → α → List (String × ℚ))
    (hstep : ∀ acc x k2, (acc.lookup k2).isSome = true →
      ((step acc x).lookup k2).isSome = true)
    (l : List α) (acc : List (String × ℚ)) (k2 : String)
    (h : (acc.lookup k2).isSome = true) :
    ((l.foldl step acc).lookup k2).isSome = true := by
  induction l generalizing acc with
  | nil => exact h
  | cons x xs ih => exact ih _ (hstep acc x k2 h)

/-- The fallback summary is non-empty. -/
theorem createFallbackAnalysis_summary_ne (h : List String)
    (r : List (List String)) (t : String) :
    (createFallbackAnalysis h r t).summary ≠ "" := by
  intro heq
  have hlen := congrArg String.length heq
  simp only [createFallbackAnalysis, String.length_append] at hlen
  have h1 : ("Analysis completed for your " : String).length = 28 := by decide
  have h0 : ("" : String).length = 0 := rfl
  rw [h1, h0] at hlen
  omega

/-- The fallback key metrics always contain `total_rows` and
`total_columns`. -/
theorem createFallbackAnalysis_total_keys (h : List String)
    (r : List (List String)) (t : String) :
    (((createFallbackAnalysis h r t).keyMetrics).lookup "total_rows").isSome = true ∧
    (((createFallbackAnalysis h r t).keyMetrics).lookup "total_columns").isSome = true := by
  have hstep : ∀ acc x k2, ((acc.lookup k2).isSome = true) →
      (((fallbackAddMetric r acc x).lookup k2).isSome = true) := by
    intro acc x k2 hk
    simp only [fallbackAddMetric]
    split
    · exact jsObjSet_lookup_isSome _ _ _ _ hk
    · exact hk
  constructor
  · exact foldl_lookup_isSome _ hstep _ _ _ (by simp [List.lookup])
  · exact foldl_lookup_isSome _ hstep _ _ _ (by simp [List.lookup])

/-- C2: whenever no JSON object can be extracted from the
generation-service reply, or the extracted block does not parse, the
response-validation step does not fail: it falls back to the
deterministic analysis, whose summary is non-empty and whose key metrics
contain `total_rows` and `total_columns`. -/
theorem c2_fallback_guarantee (jp : String → Option Json) (resp : String)
    (headers : List String) (rows : List (List String)) (reportType : String)
    (hfail : extractJsonBlock resp = none ∨
      ∀ js, extractJsonBlock resp = some js → jp js = none) :
    (responseValidationStep jp resp headers rows reportType).summary ≠ "" ∧
    (((responseValidationStep jp resp headers rows reportType).keyMetrics).lookup
      "total_rows").isSome = true ∧
    (((responseValidationStep jp resp headers rows reportType).keyMetrics).lookup
      "total_columns").isSome = true := by
  have hred : responseValidationStep jp resp headers rows reportType
      = createFallbackAnalysis headers rows reportType := by
    unfold responseValidationStep parseAIResponse
    by_cases ht : jsTrim resp = ""
    · rw [if_pos ht]
    · rw [if_neg ht]
      rcases hfail with hf | hf
      · rw [hf]
      · cases hx : extractJsonBlock resp with
        | none => rfl
        | some js => simp only [hf js hx]
  rw [hred]
  exact ⟨createFallbackAnalysis_summary_ne headers rows reportType,
    (createFallbackAnalysis_total_keys headers rows reportType).1,
    (createFallbackAnalysis_total_keys headers rows reportType).2⟩

/-- C2 witness: a reply with no JSON object, evaluated concretely. -/
theorem c2_fallback_guarantee_witness :
    (responseValidationStep (fun _ => none) "no json here" ["a"] [["1"], ["2"]]
      "general").summary ≠ "" ∧
    (((responseValidationStep (fun _ => none) "no json here" ["a"] [["1"], ["2"]]
      "general").keyMetrics).lookup "total_rows").isSome = true ∧
    (((responseValidationStep (fun _ => none) "no json here" ["a"] [["1"], ["2"]]
      "general").keyMetrics).lookup "total_columns").isSome = true :=
  c2_fallback_guarantee _ _ _ _ _ (Or.inl (by decide))


/-- `validateInsight` succeeds exactly on truthy object values. -/
theorem validateInsight_isSome (j : Json) :
    (validateInsight j).isSome = (!jsFalsy j && typeofObject j) := by
  cases hf : jsFalsy j <;> cases ht : typeofObject j <;>
    simp [validateInsight, hf, ht]

/-- `validateRecommendation` succeeds exactly on truthy object values. -/
theorem validateRecommendation_isSome (j : Json) :
    (validateRecommendation j).isSome = (!jsFalsy j && typeofObject j) := by
  cases hf : jsFalsy j <;> cases ht : typeofObject j <;>
    simp [validateRecommendation, hf, ht]

/-- `filterMap f` keeps as many elements as `filter` by the
success-predicate of `f`. -/
theorem length_filterMap_eq_filter {α : Type} (f : Json → Option α)
    (q : Json → Bool) (hq : ∀ j, (f j).isSome = q j) (l : List Json) :
    (l.filterMap f).length = (l.filter q).length := by
  induction l with
  | nil => rfl
  | cons x xs ih =>
    have hqx := hq x
    simp only [List.filterMap_cons, List.filter_cons]
    cases hx : f x with
    | none =>
      rw [hx] at hqx
      simp only [Option.isSome_none] at hqx
      simp [← hqx, ih]
    | some v =>
      rw [hx] at hqx
      simp only [Option.isSome_some] at hqx
      simp [← hqx, ih]

/-- C8 counterexample: the reply object
`\x7b"insights": ["oops"]\x7d` carries one insight entry, yet after
validation the result has zero insights — the string entry is a
non-object, so `validateInsight` returns null and `.filter(Boolean)`
drops it, contradicting the claim that every entry of the reply's
`insights` array appears in the output. -/
theorem c8_nonobject_insight_dropped :
    ((parseAIResponse
        (fun s => if s = "\x7bX\x7d" then
          some (Json.obj [("insights", Json.arr [Json.str "oops"])]) else none)
        "\x7bX\x7d" ["h"] [["1"], ["2"]]).toOption.map
      fun r => r.insights.length) = some 0 ∧
    (Json.obj [("insights", Json.arr [Json.str "oops"])]).getField "insights"
      = some (Json.arr [Json.str "oops"]) := by
  constructor
  · rfl
  · rfl

/-- The concrete reply object used to witness the C8 theorem: one
object insight with the off-enumeration impact "urgent", one string
insight, and one object recommendation with no priority, effort or
description fields. -/
def c8Reply : Json :=
  Json.obj [("insights", Json.arr [Json.obj [("impact", Json.str "urgent")],
      Json.str "oops"]),
    ("recommendations", Json.arr [Json.obj [("title", Json.str "Do it")]])]

def c8Insights : List Json :=
  [Json.obj [("impact", Json.str "urgent")], Json.str "oops"]

def c8Recs : List Json :=
  [Json.obj [("title", Json.str "Do it")]]

/-- C8 (amended): when the parsed reply carries `insights` and
`recommendations` arrays, the built result validates each entry
individually, keeping exactly the truthy object entries (in particular
dropping non-objects), and within each kept entry the claimed
defaulting holds: every surviving insight arises from validating some
array entry, its impact lies in the allowed enumeration, an unknown or
missing impact value is coerced to "medium", and a missing
title/description is replaced by the placeholder text; likewise every
surviving recommendation has priority/effort in their enumerations,
unknown or missing values coerced to "medium", and placeholder
title/description when missing. -/
theorem c8_entries_validated_individually (parsed : Json) (a b : List Json)
    (headers : List String) (rows : List (List String))
    (hi : parsed.getField "insights" = some (Json.arr a))
    (hr : parsed.getField "recommendations" = some (Json.arr b)) :
    (buildAIResult parsed headers rows).insights.length
      = (a.filter fun j => !jsFalsy j && typeofObject j).length ∧
    (buildAIResult parsed headers rows).recommendations.length
      = (b.filter fun j => !jsFalsy j && typeofObject j).length ∧
    (∀ i ∈ (buildAIResult parsed headers rows).insights,
      ∃ j ∈ a, validateInsight j = some i ∧
        i.impact ∈ (["high", "medium", "low"] : List String) ∧
        (∀ s, j.getField "impact" = some (Json.str s) →
          s ∉ (["high", "medium", "low"] : List String) → i.impact = "medium") ∧
        (j.getField "impact" = none → i.impact = "medium") ∧
        (j.getField "title" = none → i.title = "Insight") ∧
        (j.getField "description" = none →
          i.description = "No description available")) ∧
    (∀ rec ∈ (buildAIResult parsed headers rows).recommendations,
      ∃ j ∈ b, validateRecommendation j = some rec ∧
        rec.priority ∈ (["high", "medium", "low"] : List String) ∧
        rec.effort ∈ (["low", "medium", "high"] : List String) ∧
        (∀ s, j.getField "priority" = some (Json.str s) →
          s ∉ (["high", "medium", "low"] : List String) → rec.priority = "medium") ∧
        (∀ s, j.getField "effort" = some (Json.str s) →
          s ∉ (["low", "medium", "high"] : List String) → rec.effort = "medium") ∧
        (j.getField "priority" = none → rec.priority = "medium") ∧
        (j.getField "effort" = none → rec.effort = "medium") ∧
        (j.getField "title" = none → rec.title = "Recommendation") ∧
        (j.getField "description" = none →
          rec.description = "No description available")) := by
  have hins : (buildAIResult parsed headers rows).insights
      = a.filterMap validateInsight := by
    simp only [buildAIResult, hi]
  have hrec : (buildAIResult parsed headers rows).recommendations
      = b.filterMap validateRecommendation := by
    simp only [buildAIResult, hr]
  refine ⟨?_, ?_, ?_, ?_⟩
  · rw [hins]
    exact length_filterMap_eq_filter validateInsight _ validateInsight_isSome a
  · rw [hrec]
    exact length_filterMap_eq_filter validateRecommendation _
      validateRecommendation_isSome b
  · intro i him
    rw [hins, List.mem_filterMap] at him
    obtain ⟨j, hj, hv⟩ := him
    have hv2 := hv
    unfold validateInsight at hv2
    split at hv2
    · exact Option.noConfusion hv2
    · injection hv2 with hv2
      subst hv2
      refine ⟨j, hj, hv, ?_, ?_, ?_, ?_, ?_⟩
      · cases hgf : j.getField "impact" with
        | none => simp [hgf]
        | some v =>
          cases v with
          | str s =>
            simp only [hgf]
            split_ifs with hcs
            · simpa using hcs
            · simp
          | null => simp [hgf]
          | bool b => simp [hgf]
          | num q => simp [hgf]
          | arr l => simp [hgf]
          | obj f => simp [hgf]
      · intro s hs hns
        simp only [hs]
        split_ifs with hcs
        · exact absurd (by simpa using hcs) hns
        · rfl
      · intro h0
        simp [h0]
      · intro h0
        simp [h0]
      · intro h0
        simp [h0]
  · intro rec hrm
    rw [hrec, List.mem_filterMap] at hrm
    obtain ⟨j, hj, hv⟩ := hrm
    have hv2 := hv
    unfold validateRecommendation at hv2
    split at hv2
    · exact Option.noConfusion hv2
    · injection hv2 with hv2
      subst hv2
      refine ⟨j, hj, hv, ?_, ?_, ?_, ?_, ?_, ?_, ?_, ?_⟩
      · cases hgf : j.getField "priority" with
        | none => simp [hgf]
        | some v =>
          cases v with
          | str s =>
            simp only [hgf]
            split_ifs with hcs
            · simpa using hcs
            · simp
          | null => simp [hgf]
          | bool b => simp [hgf]
          | num q => simp [hgf]
          | arr l => simp [hgf]
          | obj f => simp [hgf]
      · cases hgf : j.getField "effort" with
        | none => simp [hgf]
        | some v =>
          cases v with
          | str s =>
            simp only [hgf]
            split_ifs with hcs
            · simpa using hcs
            · simp
          | null => simp [hgf]
          | bool b => simp [hgf]
          | num q => simp [hgf]
          | arr l => simp [hgf]
          | obj f => simp [hgf]
      · intro s hs hns
        simp only [hs]
        split_ifs with hcs
        · exact absurd (by simpa using hcs) hns
        · rfl
      · intro s hs hns
        simp only [hs]
        split_ifs with hcs
        · exact absurd (by simpa using hcs) hns
        · rfl
      · intro h0
        simp [h0]
      · intro h0
        simp [h0]
      · intro h0
        simp [h0]
      · intro h0
        simp [h0]

/-- C8 amended-theorem witness: the reply `c8Reply` (one object insight
with unknown impact "urgent", one string insight, one object
recommendation with only a title), evaluated concretely. -/
theorem c8_entries_validated_individually_witness :
    (buildAIResult c8Reply ["h"] [["1"], ["2"]]).insights.length
      = (c8Insights.filter fun j => !jsFalsy j && typeofObject j).length ∧
    (buildAIResult c8Reply ["h"] [["1"], ["2"]]).recommendations.length
      = (c8Recs.filter fun j => !jsFalsy j && typeofObject j).length ∧
    (∀ i ∈ (buildAIResult c8Reply ["h"] [["1"], ["2"]]).insights,
      ∃ j ∈ c8Insights, validateInsight j = some i ∧
        i.impact ∈ (["high", "medium", "low"] : List String) ∧
        (∀ s, j.getField "impact" = some (Json.str s) →
          s ∉ (["high", "medium", "low"] : List String) → i.impact = "medium") ∧
        (j.getField "impact" = none → i.impact = "medium") ∧
        (j.getField "title" = none → i.title = "Insight") ∧
        (j.getField "description" = none →
          i.description = "No description available")) ∧
    (∀ rec ∈ (buildAIResult c8Reply ["h"] [["1"], ["2"]]).recommendations,
      ∃ j ∈ c8Recs, validateRecommendation j = some rec ∧
        rec.priority ∈ (["high", "medium", "low"] : List String) ∧
        rec.effort ∈ (["low", "medium", "high"] : List String) ∧
        (∀ s, j.getField "priority" = some (Json.str s) →
          s ∉ (["high", "medium", "low"] : List String) → rec.priority = "medium") ∧
        (∀ s, j.getField "effort" = some (Json.str s) →
          s ∉ (["low", "medium", "high"] : List String) → rec.effort = "medium") ∧
        (j.getField "priority" = none → rec.priority = "medium") ∧
        (j.getField "effort" = none → rec.effort = "medium") ∧
        (j.getField "title" = none → rec.title = "Recommendation") ∧
        (j.getField "description" = none →
          rec.description = "No description available")) :=
  c8_entries_validated_individually c8Reply c8Insights c8Recs
    ["h"] [["1"], ["2"]] (by rfl) (by rfl)

end Dashboard
